import Mathlib

/-!
Shallow embedding of the AlphabetSwarm game (src/AlphabetSwarm.py): the letter-swarm
simulation, the preview/confirm input state machine, the word/turn session controller,
word-file loading and scoring.  Randomness, the pygame font layout and the wall clock
are passed in as explicit parameters; an uncaught Python exception is modelled as
`none`.  Positions and velocities live in an arbitrary linear ordered field `K`
(the source computes with floats); theorems that need trigonometry instantiate
`K := ℝ`, executable witnesses instantiate `K := ℚ`.
-/

set_option linter.unusedSectionVars false
set_option maxHeartbeats 1000000
set_option maxRecDepth 8000

namespace AlphabetSwarm

/-- Letter entity states (source line 89-90: STATE_NORMAL, STATE_PREVIEW,
STATE_ANIMATING_TO_SLOT, STATE_PLACED). -/
inductive LState where
  | normal
  | preview
  | animating
  | placed
  deriving DecidableEq, Repr

/-- Top-level screens (source lines 82-85). -/
inductive Screen where
  | mainMenu
  | playerNameInput
  | gamePlay
  | showTurnTransition
  | versusGameOver
  | leaderboardDisplay
  deriving DecidableEq, Repr

/-- Game modes (source line 98). -/
inductive Mode where
  | onePlayer
  | twoPlayerVersus
  deriving DecidableEq, Repr

/-- A KEYDOWN event during gameplay: the escape key, or a character key carrying its
unicode character (the physical C key always carries the letter c, upper or lower). -/
inductive GKey where
  | escape
  | char (c : Char)
  deriving DecidableEq

/-- A word-list entry (source: the per-line dict with word and clue fields). -/
structure WordEntry where
  word : String
  clue : String
  deriving DecidableEq, Repr

/- ------------- Constants (source lines 93-95, 73-74, 105-107) ------------- -/

def PREVIEW_DURATION_MS : ℕ := 3000
def HINTS_PER_WORD : ℕ := 3
def HINT_TIMER_DURATION_MS : ℕ := 30000
def SCORE_DISPLAY_DURATION_MS : ℕ := 2000
def window_width : ℕ := 1000
def window_height : ℕ := 700
def default_letter_size : ℕ := 40
/-- ENLARGED_LETTER_SIZE = int(default_letter_size * 5.0) (source line 106). -/
def ENLARGED_LETTER_SIZE : ℕ := 200
def default_letter_speed : ℕ := 2
def num_letters : ℕ := 26

/-- letters = list(string.ascii_uppercase) (source line 107): entity i carries the
i-th uppercase letter as its fixed identity. -/
def letterOf (i : Fin 26) : Char := Char.ofNat (65 + i.val)

/- ------------- Word loading (source lines 46-70) ------------- -/

/-- Python str.strip(): drop whitespace from both ends.  The source applies it to
ASCII word-file lines. -/
def pyStrip (s : String) : String :=
  String.mk (((s.toList.dropWhile Char.isWhitespace).reverse.dropWhile Char.isWhitespace).reverse)

/-- Python str.upper() on the ASCII strings the word file holds. -/
def pyUpper (s : String) : String :=
  String.mk (s.toList.map Char.toUpper)

/-- Python str.isalpha(): non-empty and every character alphabetic. -/
def pyIsAlpha (s : String) : Bool :=
  !s.toList.isEmpty && s.toList.all Char.isAlpha

/-- Python line.split(',', 1): some (before, after) at the first comma, none when the
line holds no comma (then len(parts) == 1). -/
def splitOnce : List Char → Option (List Char × List Char)
  | [] => none
  | c :: rest =>
    if c = ',' then some ([], rest)
    else (splitOnce rest).map (fun p => (c :: p.1, p.2))

/-- One line of the word file (source lines 51-56): only word,clue lines with a
stripped upper-cased word of 3-5 alphabetic characters and a non-empty stripped clue
contribute an entry; every other line is skipped. -/
def processLine (line : String) : Option WordEntry :=
  match splitOnce line.toList with
  | none => none
  | some (w, cl) =>
    let wc := pyUpper (pyStrip (String.mk w))
    let cc := pyStrip (String.mk cl)
    if wc.toList ≠ [] ∧ cc.toList ≠ [] ∧ 3 ≤ wc.toList.length ∧ wc.toList.length ≤ 5 ∧
        pyIsAlpha wc = true then
      some ⟨wc, cc⟩
    else none

/-- load_words_from_file (source lines 46-63).  The file is given as its list of
lines; `none` is the FileNotFoundError path, which also yields an empty result. -/
def load_words_from_file (fileLines : Option (List String)) : List WordEntry :=
  match fileLines with
  | none => []
  | some ls => ls.filterMap processLine

def DEFAULT_SIMPLE_WORDS : List WordEntry :=
  [⟨("CAT"), ("A furry animal that meows")⟩,
   ⟨("DOG"), ("Barks and wags its tail")⟩,
   ⟨("SUN"), ("Shines during the day")⟩,
   ⟨("TREE"), ("Has leaves and a trunk")⟩,
   ⟨("BOOK"), ("Something you read")⟩,
   ⟨("FISH"), ("Swims in water")⟩,
   ⟨("BALL"), ("Round toy for playing")⟩,
   ⟨("STAR"), ("Twinkles in the night sky")⟩]

/-- Module-level word-list setup (source lines 65-68): fall back to the default list
when the file yields no valid entries. -/
def simple_words (fileLines : Option (List String)) : List WordEntry :=
  let loaded := load_words_from_file fileLines
  if loaded = [] then DEFAULT_SIMPLE_WORDS else loaded

/- ------------- Scoring (source lines 150-164) ------------- -/

/-- get_word_base_score (source lines 150-155). -/
def get_word_base_score (word : List Char) : ℤ :=
  if word.length = 3 then 30
  else if word.length = 4 then 40
  else if word.length = 5 then 50
  else 0

/-- calculate_speed_multiplier (source lines 156-164).  Line 157 reads
`if word_length == 0: return 1.0; time_for_max_bonus_per_letter_ms = 3000; ...`:
in Python the two constant assignments are part of that one-line if-suite, after the
`return`, so they never execute.  For word_length = 0 the function returns 1.0; for
every other word_length, line 158 then reads the never-assigned local
time_for_max_bonus_per_letter_ms and the call raises UnboundLocalError.  The raise is
modelled as `none`. -/
def calculate_speed_multiplier (_timeTakenMs : ℤ) (wordLength : ℕ) : Option ℚ :=
  if wordLength = 0 then some 1 else none

/-- Modelled from the spec: the multiplier formula the dead assignments in
calculate_speed_multiplier were meant to implement (spec section 4.4: linear decay
from 2.0 at wordLength*3000 ms down to 1.0 at wordLength*8000 ms, clamped to
the interval from 1.0 to 2.0). -/
def speedMultiplierIntended (timeTakenMs : ℤ) (wordLength : ℕ) : ℚ :=
  if wordLength = 0 then 1
  else
    let maxB : ℤ := wordLength * 3000
    let minB : ℤ := wordLength * 8000
    let bonus : ℚ :=
      if timeTakenMs < maxB then 1
      else if timeTakenMs < minB then ((minB - timeTakenMs : ℤ) : ℚ) / ((minB - maxB : ℤ) : ℚ)
      else 0
    max 1 (min (1 + bonus) 2)

/- ------------- Game state (the gameplay-relevant module globals) ------------- -/

/-- The mutable module-level gameplay state (source lines 86-125), over an ordered
field K for positions and velocities (floats in the source).  The 26 parallel letter
lists (source lines 108-110) are total maps from the fixed entity index; the active
preview list holds entity indices (always drawn from range(26) in the source). -/
structure GameState (K : Type) where
  letter_states : Fin 26 → LState
  letter_positions : Fin 26 → K × K
  letter_velocities : Fin 26 → K × K
  original_letter_velocities : Fin 26 → K × K
  letter_colors : Fin 26 → ℕ × ℕ × ℕ
  letter_preview_timers : Fin 26 → ℕ
  letter_target_slot_indices : Fin 26 → ℤ
  letter_feedback_flash_timers : Fin 26 → ℕ
  target_word : List Char
  current_clue_text : String
  displayed_word_chars : List Char
  current_letter_index : ℕ
  word_start_time : ℕ
  hints_used_this_word : ℕ
  hint_timer_start_time : ℕ
  is_hint_timer_active : Bool
  show_clue_on_screen : Bool
  previewed_letter_char : Option String
  active_preview_letter_indices : List (Fin 26)
  pending_new_word_setup_time : ℕ
  last_word_score : ℤ
  show_last_word_score_until : ℕ
  current_player_turn : ℕ
  player_scores : Fin 2 → ℤ
  player_failed_last_word : Fin 2 → Bool
  current_game_state : Screen
  current_game_mode : Mode

/-- The random draws consumed by one call of setup_new_word_for_active_player
(source lines 192, 210-220), passed in explicitly: the chosen word entry, each
entity's randint position pair, its sampled velocity pair (cos(angle)*speed,
sin(angle)*speed for angle uniform in 0..2pi and speed randint(1,2)), and its
random color triple.  Theorems constrain these to the sampling ranges. -/
structure Rnd (K : Type) where
  word_choice : WordEntry
  pos_choice : Fin 26 → ℕ × ℕ
  vel_choice : Fin 26 → K × K
  color_choice : Fin 26 → ℕ × ℕ × ℕ

variable {K : Type} [LinearOrderedField K]

/-- Guarded write list[current_player_turn - 1] = v.  The source guard is
0 <= player_idx < len(list) over Python ints with player_idx = turn - 1, which for a
natural turn is 1 <= turn and turn - 1 < 2. -/
def setPlayer {α : Type} (turn : ℕ) (f : Fin 2 → α) (v : α) : Fin 2 → α :=
  if h : 1 ≤ turn ∧ turn - 1 < 2 then Function.update f ⟨turn - 1, h.2⟩ v else f

/-- Guarded player_scores[idx] += v (source lines 399-400, 481-482). -/
def addScore (turn : ℕ) (f : Fin 2 → ℤ) (v : ℤ) : Fin 2 → ℤ :=
  if h : 1 ≤ turn ∧ turn - 1 < 2 then
    Function.update f ⟨turn - 1, h.2⟩ (f ⟨turn - 1, h.2⟩ + v)
  else f

/-- setup_new_word_for_active_player (source lines 184-225): select the word, clear
the buffer and cursor, restart the word and hint timers, clear the preview, clear the
active player's failed flag and reset all 26 entities in place. -/
def setup_new_word_for_active_player (rnd : Rnd K) (now : ℕ) (s : GameState K) :
    GameState K :=
  { s with
    target_word := rnd.word_choice.word.toList
    current_clue_text := rnd.word_choice.clue
    displayed_word_chars := List.replicate rnd.word_choice.word.toList.length '_'
    current_letter_index := 0
    word_start_time := now
    hints_used_this_word := 0
    hint_timer_start_time := now
    is_hint_timer_active := true
    show_clue_on_screen := true
    previewed_letter_char := none
    active_preview_letter_indices := []
    player_failed_last_word := setPlayer s.current_player_turn s.player_failed_last_word false
    letter_states := fun _ => LState.normal
    letter_positions := fun i => (((rnd.pos_choice i).1 : K), ((rnd.pos_choice i).2 : K))
    letter_velocities := fun i => rnd.vel_choice i
    original_letter_velocities := fun i => rnd.vel_choice i
    letter_colors := fun i => rnd.color_choice i
    letter_preview_timers := fun _ => 0
    letter_target_slot_indices := fun _ => -1
    letter_feedback_flash_timers := fun _ => 0 }

/- ------------- The preview/confirm input state machine ------------- -/

/-- Revert every listed index to Normal, restore its original velocity and clear its
preview timer.  This identical per-entity revert appears at source lines 375-376
(confirmation), 416-418 (superseded preview) and 499-500 (timeout); its loop
iterations are independent, so it is embedded pointwise. -/
def revertPreview (idxs : List (Fin 26)) (s : GameState K) : GameState K :=
  { s with
    letter_states := fun j => if j ∈ idxs then LState.normal else s.letter_states j
    letter_velocities := fun j =>
      if j ∈ idxs then s.original_letter_velocities j else s.letter_velocities j
    letter_preview_timers := fun j => if j ∈ idxs then 0 else s.letter_preview_timers j }

/-- Set the feedback flash timer of every listed index (source lines 407-408 and
412-413: now + 500 ms). -/
def setFlash (idxs : List (Fin 26)) (t : ℕ) (s : GameState K) : GameState K :=
  { s with
    letter_feedback_flash_timers := fun j =>
      if j ∈ idxs then t else s.letter_feedback_flash_timers j }

/-- Word-completion bookkeeping shared by the key handler (source lines 394-404) and
the hint path (source lines 476-486): clear the active player's failed flag, add
int(base * multiplier) to their score, record the word score and schedule the
new-word transition.  calculate_speed_multiplier raises for every non-empty word
(see its doc comment), so this entire step is `none` whenever the target word is
non-empty: the pre-crash writes are never observable.  The assignments to
show_feedback_message_until at source lines 404, 473 and 486 bind a function-local
name (the variable is missing from the functions' global declarations), never the
module state, so that timer is not part of this model. -/
def completeWordScore (now : ℕ) (s : GameState K) : Option (GameState K) :=
  match calculate_speed_multiplier ((now : ℤ) - (s.word_start_time : ℤ))
      s.target_word.length with
  | none => none
  | some m =>
    let score : ℤ := ((get_word_base_score s.target_word : ℚ) * m).floor
    some { s with
      player_failed_last_word :=
        setPlayer s.current_player_turn s.player_failed_last_word false
      player_scores := addScore s.current_player_turn s.player_scores score
      last_word_score := score
      show_last_word_score_until := now + SCORE_DISPLAY_DURATION_MS
      pending_new_word_setup_time := now + 2000 }

/-- On a correct confirmation, pick the first captured entity now in Normal state
(the revert just ran, so normally the first captured one) and send it animating to
the cursor slot in success color; with no captured entity, skip the visual step
(source lines 382-390). -/
def confirmAnimate (confirmed : List (Fin 26)) (cursor : ℕ) (s2 : GameState K) :
    GameState K :=
  match confirmed.find? (fun i => s2.letter_states i == LState.normal) with
  | some i =>
    { s2 with
      letter_states := Function.update s2.letter_states i LState.animating
      letter_target_slot_indices :=
        Function.update s2.letter_target_slot_indices i (cursor : ℤ)
      letter_colors := Function.update s2.letter_colors i (0, 255, 0) }
  | none => s2

/-- The confirmation branch of handle_events_game_play (source lines 373-413): the
captured previewed entities are reverted, the previewed character and active set are
cleared unconditionally, and then correctness against the target word decides
between animating one captured entity into the cursor slot plus advancing the
cursor (confirmAnimate), and flashing the captured entities.  The guard
`target_word and current_letter_index < len(target_word)` is equivalent to
current_letter_index < len(target_word).  pressed_char is a Python string
(event.unicode.upper()); expected_letter = target_word[current_letter_index] is a
one-character string, so the correctness test compares pressed against that
singleton string. -/
def confirmStep (pressed : String) (now : ℕ) (s : GameState K) : Option (GameState K) :=
  let confirmed := s.active_preview_letter_indices
  let s1 := revertPreview confirmed s
  let s2 := { s1 with
    active_preview_letter_indices := ([] : List (Fin 26))
    previewed_letter_char := (none : Option String) }
  if h : s.current_letter_index < s.target_word.length then
    let expected := s.target_word.get ⟨s.current_letter_index, h⟩
    if pressed = String.mk [expected] then
      let s3 := confirmAnimate confirmed s.current_letter_index s2
      let s4 := { s3 with current_letter_index := s.current_letter_index + 1 }
      let s5 :=
        if s.current_letter_index + 1 < s.target_word.length then
          { s4 with hint_timer_start_time := now, is_hint_timer_active := true }
        else { s4 with is_hint_timer_active := false }
      if s.current_letter_index + 1 = s.target_word.length then completeWordScore now s5
      else some s5
    else some (setFlash confirmed (now + 500) s2)
  else some (setFlash confirmed (now + 500) s2)

/-- Python truthiness of the optional previewed string (source line 415 tests
`if previewed_letter_char:`): None and the empty string are falsy.  The stored
strings are upper-cased alphabetic characters, hence never empty, so this agrees
with an is-not-None test on every reachable state. -/
def pyStrTruthy : Option String → Bool
  | none => false
  | some t => !t.toList.isEmpty

/-- The new-preview branch of handle_events_game_play (source lines 414-429):
supersede any stale preview with the shared revert, then put every entity whose
letter (a one-character string from string.ascii_uppercase, line 107) equals the
pressed string into Previewed state: clamp its position so the enlarged box stays on
screen, halve its original velocity, arm its preview timer and record it.  The loop
iterations are independent and append matching indices in increasing order, so it is
embedded pointwise with a filter over range(26).  A pressed string outside A-Z (a
non-ASCII alphabetic key, whose upper-case image may even have several characters)
matches no entity: the previewed character is recorded with an empty active set. -/
def newPreviewStep (pressed : String) (now : ℕ) (s : GameState K) : GameState K :=
  let s1 :=
    if pyStrTruthy s.previewed_letter_char then revertPreview s.active_preview_letter_indices s
    else s
  let clampPos : K × K → K × K := fun p =>
    let x0 := if p.1 < 0 then 0 else p.1
    let y0 := if p.2 < 0 then 0 else p.2
    let x1 := if x0 + (ENLARGED_LETTER_SIZE : K) > (window_width : K) then
        (window_width : K) - (ENLARGED_LETTER_SIZE : K) else x0
    let y1 := if y0 + (ENLARGED_LETTER_SIZE : K) > (window_height : K) then
        (window_height : K) - (ENLARGED_LETTER_SIZE : K) else y0
    (x1, y1)
  { s1 with
    previewed_letter_char := some pressed
    active_preview_letter_indices :=
      (List.finRange 26).filter (fun i => String.mk [letterOf i] == pressed)
    letter_states := fun j =>
      if String.mk [letterOf j] = pressed then LState.preview else s1.letter_states j
    letter_positions := fun j =>
      if String.mk [letterOf j] = pressed then clampPos (s1.letter_positions j)
      else s1.letter_positions j
    letter_velocities := fun j =>
      if String.mk [letterOf j] = pressed then
        ((s1.original_letter_velocities j).1 * (1 / 2 : K),
         (s1.original_letter_velocities j).2 * (1 / 2 : K))
      else s1.letter_velocities j
    letter_preview_timers := fun j =>
      if String.mk [letterOf j] = pressed then now + PREVIEW_DURATION_MS
      else s1.letter_preview_timers j }

/-- KEYDOWN handling during gameplay (source lines 360-429).  Escape returns to the
menu.  Line 370 tests `event.key == pygame.K_c` with a plain `if` whose `elif` at
line 371 carries the whole letter branch, so the physical C key only ever toggles
the clue.  Other alphabetic keys are processed only while no new-word transition is
pending.  `none` models the uncaught word-completion scoring exception.

Line 371 calls event.unicode.isalpha() and line 372 event.unicode.upper(): Python
string methods that consult the full Unicode tables, external data like the font
layout, passed in here as the uni_isalpha and uni_upper collaborators.  isalpha
accepts every Unicode letter, far beyond A-Z/a-z (Lean's ASCII Char.isAlpha is a
strict subset), and upper maps a character to a string that need not be a single
character (eszett upper-cases to SS), so pressed_char is a string.  Line 373's
`previewed_letter_char is not None and pressed_char == previewed_letter_char`
is the equality test against some pressed. -/
def handle_events_game_play (uni_isalpha : Char → Bool) (uni_upper : Char → String) :
    GKey → ℕ → GameState K → Option (GameState K)
  | GKey.escape, _, s => some { s with current_game_state := Screen.mainMenu }
  | GKey.char c, now, s =>
    if c = 'c' ∨ c = 'C' then some { s with show_clue_on_screen := !s.show_clue_on_screen }
    else if s.pending_new_word_setup_time = 0 ∧ uni_isalpha c = true then
      let pressed := uni_upper c
      if s.previewed_letter_char = some pressed then confirmStep pressed now s
      else some (newPreviewStep pressed now s)
    else some s

/-- Python str.isalpha and str.upper restricted to the ASCII plane: the fragment of
the Unicode tables every witness below instantiates the collaborators with (on ASCII
arguments the full tables agree with these). -/
def ascii_isalpha : Char → Bool := fun c => c.isAlpha

/-- ASCII fragment of str.upper; see ascii_isalpha. -/
def ascii_upper : Char → String := fun c => String.mk [c.toUpper]

/-- A slightly larger fragment of the Unicode tables: the ASCII plane plus the
letter LATIN SMALL LETTER E WITH ACUTE, which Python's str.isalpha accepts
(category Ll) and str.upper maps to LATIN CAPITAL LETTER E WITH ACUTE. -/
def accent_isalpha : Char → Bool := fun c => c.isAlpha || c == ('é')

/-- The matching fragment of str.upper; see accent_isalpha. -/
def accent_upper : Char → String :=
  fun c => if c = 'é' then String.mk [('É')] else String.mk [c.toUpper]

/- ------------- Per-frame update (source lines 431-524) ------------- -/

/-- The hint search (source lines 453-457): the first matching entity in Normal
state, else the first matching entity in Preview state. -/
def hintFind (s : GameState K) (ch : Char) : Option (Fin 26) :=
  match (List.finRange 26).find?
      (fun i => letterOf i == ch && s.letter_states i == LState.normal) with
  | some i => some i
  | none =>
    (List.finRange 26).find?
      (fun i => letterOf i == ch && s.letter_states i == LState.preview)

/-- The pending new-word check (source lines 441-447): once the scheduled time is
reached, clear it and either hand over the turn (2P) or set up the next word. -/
def pendingStage (rnd : Rnd K) (now : ℕ) (s : GameState K) : GameState K :=
  if 0 < s.pending_new_word_setup_time ∧ s.pending_new_word_setup_time ≤ now then
    let s1 := { s with pending_new_word_setup_time := 0 }
    if s.current_game_mode = Mode.twoPlayerVersus then
      { s1 with current_game_state := Screen.showTurnTransition }
    else setup_new_word_for_active_player rnd now s1
  else s

/-- Detach the hint-chosen entity from the preview selection (source lines 460-462):
if it was the previewed entity (previewed_letter_char == letters[idx], a string
comparison against the entity's one-character string), drop it from the active set
(the guarded list.remove) and clear the previewed character when that empties the
set. -/
def hintDetach (idx : Fin 26) (s : GameState K) : GameState K :=
  if s.letter_states idx = LState.preview ∧
      s.previewed_letter_char = some (String.mk [letterOf idx]) then
    let ap := s.active_preview_letter_indices.erase idx
    { s with
      active_preview_letter_indices := ap
      previewed_letter_char := if ap = [] then none else s.previewed_letter_char }
  else s

/-- The hint-timer block of update_game_play_logic (source lines 449-492): when the
hint timer fires, reveal the expected letter by forcing a matching entity into
AnimatingToSlot (detaching it from the preview selection first if needed), consume a
hint, advance the cursor, and then either fail the word (budget exhausted while
incomplete), complete it (scoring raises, see completeWordScore), or re-arm the
timer.  `none` models the uncaught scoring exception. -/
def hintStage (now : ℕ) (s : GameState K) : Option (GameState K) :=
  if s.is_hint_timer_active ∧ s.hints_used_this_word < HINTS_PER_WORD ∧
      s.pending_new_word_setup_time = 0 then
    if (HINT_TIMER_DURATION_MS : ℤ) ≤ (now : ℤ) - (s.hint_timer_start_time : ℤ) then
      if h : s.current_letter_index < s.target_word.length then
        let correctChar := s.target_word.get ⟨s.current_letter_index, h⟩
        match hintFind s correctChar with
        | some idx =>
          let s1 := hintDetach idx s
          let s2 := { s1 with
            letter_states := Function.update s1.letter_states idx LState.animating
            letter_target_slot_indices :=
              Function.update s1.letter_target_slot_indices idx (s.current_letter_index : ℤ)
            letter_colors := Function.update s1.letter_colors idx (0, 255, 0)
            hints_used_this_word := s.hints_used_this_word + 1
            current_letter_index := s.current_letter_index + 1 }
          if HINTS_PER_WORD ≤ s2.hints_used_this_word ∧
              s2.current_letter_index < s.target_word.length then
            some { s2 with
              player_failed_last_word :=
                setPlayer s.current_player_turn s2.player_failed_last_word true
              last_word_score := 0
              show_last_word_score_until := now + SCORE_DISPLAY_DURATION_MS
              pending_new_word_setup_time := now + 2000
              is_hint_timer_active := false }
          else if s2.current_letter_index = s.target_word.length then
            (completeWordScore now s2).map (fun t => { t with is_hint_timer_active := false })
          else if s2.hints_used_this_word < HINTS_PER_WORD then
            some { s2 with hint_timer_start_time := now, is_hint_timer_active := true }
          else some { s2 with is_hint_timer_active := false }
        | none => some { s with hint_timer_start_time := now }
      else some { s with is_hint_timer_active := false }
    else some s
  else some s

/-- Source line 493: once the budget is exhausted the hint timer is switched off. -/
def hintCap (s : GameState K) : GameState K :=
  if HINTS_PER_WORD ≤ s.hints_used_this_word then { s with is_hint_timer_active := false }
  else s

/-- The preview-timeout sweep (source lines 495-503): expired previewed entities
revert (the shared revert procedure), surviving indices are kept; if none survive
the previewed character is cleared.  Iterations are independent, embedded pointwise
with a filter (equivalent also on duplicate indices, which the game never
produces). -/
def previewExpiryStage (now : ℕ) (s : GameState K) : GameState K :=
  if s.previewed_letter_char.isSome ∧ s.active_preview_letter_indices ≠ [] then
    let still := s.active_preview_letter_indices.filter
      (fun j => s.letter_states j == LState.preview &&
        !(decide (s.letter_preview_timers j < now) && decide (s.letter_preview_timers j ≠ 0)))
    { s with
      letter_states := fun j =>
        if j ∈ s.active_preview_letter_indices ∧ s.letter_states j = LState.preview ∧
            s.letter_preview_timers j < now ∧ s.letter_preview_timers j ≠ 0 then
          LState.normal
        else s.letter_states j
      letter_velocities := fun j =>
        if j ∈ s.active_preview_letter_indices ∧ s.letter_states j = LState.preview ∧
            s.letter_preview_timers j < now ∧ s.letter_preview_timers j ≠ 0 then
          s.original_letter_velocities j
        else s.letter_velocities j
      letter_preview_timers := fun j =>
        if j ∈ s.active_preview_letter_indices ∧ s.letter_states j = LState.preview ∧
            s.letter_preview_timers j < now ∧ s.letter_preview_timers j ≠ 0 then 0
        else s.letter_preview_timers j
      active_preview_letter_indices := still
      previewed_letter_char := if still = [] then none else s.previewed_letter_char }
  else s

/-- get_slot_position (source lines 165-181): out-of-range slot indices yield the
off-screen sentinel (-100, -100) (line 167); in-range coordinates come from pygame
font metrics over the partially revealed word, the UI layout collaborator of spec
section 6, abstracted here as the layout argument. -/
def get_slot_position (layout : List Char → ℕ → K × K) (tw : List Char)
    (displayed : List Char) (slotIdx : ℤ) : K × K :=
  if tw = [] ∨ slotIdx < 0 ∨ (tw.length : ℤ) ≤ slotIdx then (-100, -100)
  else layout displayed slotIdx.toNat

/-- The Normal/Previewed drift-and-bounce update (source lines 519-523): the
position takes a full velocity step first, and a coordinate that then lies outside
0..(window - size) only negates the corresponding velocity component - the position
itself is not clamped. -/
def driftStep (size : K) (p v : K × K) : (K × K) × (K × K) :=
  let x1 := p.1 + v.1
  let y1 := p.2 + v.2
  let vx1 := if x1 < 0 ∨ x1 > (window_width : K) - size then -v.1 else v.1
  let vy1 := if y1 < 0 ∨ y1 > (window_height : K) - size then -v.2 else v.2
  ((x1, y1), (vx1, vy1))

/-- One entity's per-tick motion update, the body of the loop at source lines
505-524: constant-speed slot seeking with snap-and-place for AnimatingToSlot
(sqrtK abstracts math.sqrt), drift-and-bounce for Normal/Previewed with the current
draw size (enlarged while Previewed), and no movement for Placed. -/
def moveEntity (layout : List Char → ℕ → K × K) (sqrtK : K → K) (i : Fin 26)
    (t : GameState K) : GameState K :=
  let x := (t.letter_positions i).1
  let y := (t.letter_positions i).2
  if t.letter_states i = LState.animating then
    let slotIdx := t.letter_target_slot_indices i
    if slotIdx ≠ -1 then
      let tp := get_slot_position layout t.target_word t.displayed_word_chars slotIdx
      let dx := tp.1 - x
      let dy := tp.2 - y
      let dist := sqrtK (dx * dx + dy * dy)
      if dist < 10 then
        { t with
          letter_positions := Function.update t.letter_positions i tp
          letter_velocities := Function.update t.letter_velocities i (0, 0)
          letter_states := Function.update t.letter_states i LState.placed
          displayed_word_chars :=
            if 0 ≤ slotIdx ∧ slotIdx < (t.displayed_word_chars.length : ℤ) then
              t.displayed_word_chars.set slotIdx.toNat (letterOf i)
            else t.displayed_word_chars }
      else
        { t with
          letter_positions :=
            Function.update t.letter_positions i (x + dx / dist * 10, y + dy / dist * 10)
          letter_velocities := Function.update t.letter_velocities i (dx / dist * 10, dy / dist * 10) }
    else { t with letter_states := Function.update t.letter_states i LState.normal }
  else if t.letter_states i = LState.normal ∨ t.letter_states i = LState.preview then
    let size : K := if t.letter_states i = LState.preview then
        (ENLARGED_LETTER_SIZE : K) else (default_letter_size : K)
    let r := driftStep size (t.letter_positions i) (t.letter_velocities i)
    { t with
      letter_positions := Function.update t.letter_positions i r.1
      letter_velocities := Function.update t.letter_velocities i r.2 }
  else t

/-- The per-entity motion loop (source lines 505-524), sequential because a
placement writes the shared displayed-word buffer which feeds the slot layout of
later entities in the same pass. -/
def motionStage (layout : List Char → ℕ → K × K) (sqrtK : K → K) (s : GameState K) :
    GameState K :=
  (List.finRange 26).foldl (fun t i => moveEntity layout sqrtK i t) s

/-- update_game_play_logic (source lines 431-524): pending new-word check, hint
timer, hint cap, preview expiry, then motion.  `none` models the uncaught scoring
exception of the hint completion path. -/
def update_game_play_logic (rnd : Rnd K) (layout : List Char → ℕ → K × K)
    (sqrtK : K → K) (now : ℕ) (s : GameState K) : Option (GameState K) :=
  (hintStage now (pendingStage rnd now s)).map
    (fun t => motionStage layout sqrtK (previewExpiryStage now (hintCap t)))

/-- The exact condition under which one call of update_game_play_logic performs
new-word setup (source lines 441-447): a pending transition has come due in a
non-versus game. -/
def TickSetup (now : ℕ) (s : GameState K) : Prop :=
  0 < s.pending_new_word_setup_time ∧ s.pending_new_word_setup_time ≤ now ∧
    s.current_game_mode ≠ Mode.twoPlayerVersus

instance (now : ℕ) (s : GameState K) : Decidable (TickSetup now s) := by
  unfold TickSetup; infer_instance

/-- The preview-selection invariant (spec section 3, Preview Selection): the
previewed character is absent exactly when the active preview set is empty, every
active index is a Previewed entity whose one-character string is the previewed
string, and the active list is a set (no duplicates). -/
def PreviewInv (s : GameState K) : Prop :=
  (s.previewed_letter_char = none ↔ s.active_preview_letter_indices = []) ∧
  (∀ i ∈ s.active_preview_letter_indices,
      s.letter_states i = LState.preview ∧
      s.previewed_letter_char = some (String.mk [letterOf i])) ∧
  s.active_preview_letter_indices.Nodup

instance (s : GameState K) : Decidable (PreviewInv s) := by
  unfold PreviewInv; infer_instance

/- ------------- Helper lemmas: the motion stage ------------- -/

lemma moveEntity_shape (layout : List Char → ℕ → K × K) (sqrtK : K → K) (i : Fin 26)
    (t : GameState K) :
    ∃ lp lv ls dc, moveEntity layout sqrtK i t =
      { t with letter_positions := lp, letter_velocities := lv, letter_states := ls,
               displayed_word_chars := dc } := by
  unfold moveEntity
  dsimp only
  split
  · split
    · split
      · exact ⟨_, _, _, _, rfl⟩
      · exact ⟨_, _, _, _, rfl⟩
    · exact ⟨_, _, _, _, rfl⟩
  · split
    · exact ⟨_, _, _, _, rfl⟩
    · exact ⟨_, _, _, _, rfl⟩

lemma motionStage_shape (layout : List Char → ℕ → K × K) (sqrtK : K → K)
    (s : GameState K) :
    ∃ lp lv ls dc, motionStage layout sqrtK s =
      { s with letter_positions := lp, letter_velocities := lv, letter_states := ls,
               displayed_word_chars := dc } := by
  unfold motionStage
  generalize List.finRange 26 = l
  induction l generalizing s with
  | nil => exact ⟨_, _, _, _, rfl⟩
  | cons a l ih =>
    obtain ⟨lp1, lv1, ls1, dc1, h1⟩ := moveEntity_shape layout sqrtK a s
    obtain ⟨lp2, lv2, ls2, dc2, h2⟩ := ih (moveEntity layout sqrtK a s)
    refine ⟨lp2, lv2, ls2, dc2, ?_⟩
    rw [List.foldl_cons, h2, h1]

lemma motionStage_session (layout : List Char → ℕ → K × K) (sqrtK : K → K)
    (s : GameState K) :
    (motionStage layout sqrtK s).current_letter_index = s.current_letter_index ∧
    (motionStage layout sqrtK s).target_word = s.target_word ∧
    (motionStage layout sqrtK s).pending_new_word_setup_time =
      s.pending_new_word_setup_time ∧
    (motionStage layout sqrtK s).hints_used_this_word = s.hints_used_this_word ∧
    (motionStage layout sqrtK s).is_hint_timer_active = s.is_hint_timer_active ∧
    (motionStage layout sqrtK s).player_failed_last_word = s.player_failed_last_word ∧
    (motionStage layout sqrtK s).player_scores = s.player_scores ∧
    (motionStage layout sqrtK s).previewed_letter_char = s.previewed_letter_char ∧
    (motionStage layout sqrtK s).active_preview_letter_indices =
      s.active_preview_letter_indices := by
  obtain ⟨lp, lv, ls, dc, h⟩ := motionStage_shape layout sqrtK s
  rw [h]
  exact ⟨rfl, rfl, rfl, rfl, rfl, rfl, rfl, rfl, rfl⟩

lemma moveEntity_states_preview (layout : List Char → ℕ → K × K) (sqrtK : K → K)
    (i j : Fin 26) (t : GameState K) (h : t.letter_states j = LState.preview) :
    (moveEntity layout sqrtK i t).letter_states j = LState.preview := by
  unfold moveEntity
  dsimp only
  by_cases hij : i = j
  · subst hij
    have hn : ¬ t.letter_states i = LState.animating := by simp [h]
    rw [if_neg hn, if_pos (Or.inr h)]
    exact h
  · have hji : j ≠ i := fun e => hij e.symm
    split
    · split
      · split
        · simp [Function.update_noteq hji, h]
        · exact h
      · simp [Function.update_noteq hji, h]
    · split
      · exact h
      · exact h

lemma motionStage_states_preview (layout : List Char → ℕ → K × K) (sqrtK : K → K)
    (j : Fin 26) (s : GameState K) (h : s.letter_states j = LState.preview) :
    (motionStage layout sqrtK s).letter_states j = LState.preview := by
  unfold motionStage
  generalize List.finRange 26 = l
  induction l generalizing s with
  | nil => exact h
  | cons a l ih =>
    rw [List.foldl_cons]
    exact ih _ (moveEntity_states_preview layout sqrtK a j s h)

lemma moveEntity_drift (layout : List Char → ℕ → K × K) (sqrtK : K → K) (i : Fin 26)
    (t : GameState K)
    (h : t.letter_states i = LState.normal ∨ t.letter_states i = LState.preview) :
    moveEntity layout sqrtK i t =
      { t with
        letter_positions := Function.update t.letter_positions i
          (driftStep
            (if t.letter_states i = LState.preview then (ENLARGED_LETTER_SIZE : K)
             else (default_letter_size : K))
            (t.letter_positions i) (t.letter_velocities i)).1
        letter_velocities := Function.update t.letter_velocities i
          (driftStep
            (if t.letter_states i = LState.preview then (ENLARGED_LETTER_SIZE : K)
             else (default_letter_size : K))
            (t.letter_positions i) (t.letter_velocities i)).2 } := by
  have hn : ¬ t.letter_states i = LState.animating := by rcases h with h | h <;> simp [h]
  unfold moveEntity
  dsimp only
  rw [if_neg hn, if_pos h]

/- ------------- Helper lemmas: the other tick stages ------------- -/

lemma previewExpiryStage_session (now : ℕ) (s : GameState K) :
    (previewExpiryStage now s).current_letter_index = s.current_letter_index ∧
    (previewExpiryStage now s).target_word = s.target_word ∧
    (previewExpiryStage now s).pending_new_word_setup_time =
      s.pending_new_word_setup_time ∧
    (previewExpiryStage now s).hints_used_this_word = s.hints_used_this_word ∧
    (previewExpiryStage now s).is_hint_timer_active = s.is_hint_timer_active ∧
    (previewExpiryStage now s).player_failed_last_word = s.player_failed_last_word ∧
    (previewExpiryStage now s).player_scores = s.player_scores := by
  unfold previewExpiryStage
  split
  · exact ⟨rfl, rfl, rfl, rfl, rfl, rfl, rfl⟩
  · exact ⟨rfl, rfl, rfl, rfl, rfl, rfl, rfl⟩

lemma hintCap_session (s : GameState K) :
    (hintCap s).current_letter_index = s.current_letter_index ∧
    (hintCap s).target_word = s.target_word ∧
    (hintCap s).pending_new_word_setup_time = s.pending_new_word_setup_time ∧
    (hintCap s).hints_used_this_word = s.hints_used_this_word ∧
    (hintCap s).player_failed_last_word = s.player_failed_last_word ∧
    (hintCap s).player_scores = s.player_scores ∧
    (hintCap s).previewed_letter_char = s.previewed_letter_char ∧
    (hintCap s).active_preview_letter_indices = s.active_preview_letter_indices ∧
    (hintCap s).letter_states = s.letter_states ∧
    (hintCap s).letter_preview_timers = s.letter_preview_timers := by
  unfold hintCap
  split
  · exact ⟨rfl, rfl, rfl, rfl, rfl, rfl, rfl, rfl, rfl, rfl⟩
  · exact ⟨rfl, rfl, rfl, rfl, rfl, rfl, rfl, rfl, rfl, rfl⟩

/- ------------- Helper lemmas: input-machine pieces ------------- -/

lemma hintDetach_target (idx : Fin 26) (s : GameState K) :
    (hintDetach idx s).target_word = s.target_word := by
  unfold hintDetach; split <;> rfl

lemma hintDetach_cursor (idx : Fin 26) (s : GameState K) :
    (hintDetach idx s).current_letter_index = s.current_letter_index := by
  unfold hintDetach; split <;> rfl

lemma hintDetach_pending (idx : Fin 26) (s : GameState K) :
    (hintDetach idx s).pending_new_word_setup_time = s.pending_new_word_setup_time := by
  unfold hintDetach; split <;> rfl

lemma hintDetach_failed (idx : Fin 26) (s : GameState K) :
    (hintDetach idx s).player_failed_last_word = s.player_failed_last_word := by
  unfold hintDetach; split <;> rfl

lemma hintDetach_states (idx : Fin 26) (s : GameState K) :
    (hintDetach idx s).letter_states = s.letter_states := by
  unfold hintDetach; split <;> rfl

lemma confirmAnimate_target (c : List (Fin 26)) (k : ℕ) (s : GameState K) :
    (confirmAnimate c k s).target_word = s.target_word := by
  unfold confirmAnimate; split <;> rfl

lemma confirmAnimate_cursor (c : List (Fin 26)) (k : ℕ) (s : GameState K) :
    (confirmAnimate c k s).current_letter_index = s.current_letter_index := by
  unfold confirmAnimate; split <;> rfl

lemma confirmAnimate_pending (c : List (Fin 26)) (k : ℕ) (s : GameState K) :
    (confirmAnimate c k s).pending_new_word_setup_time =
      s.pending_new_word_setup_time := by
  unfold confirmAnimate; split <;> rfl

lemma confirmAnimate_active (c : List (Fin 26)) (k : ℕ) (s : GameState K) :
    (confirmAnimate c k s).active_preview_letter_indices =
      s.active_preview_letter_indices := by
  unfold confirmAnimate; split <;> rfl

lemma confirmAnimate_previewed (c : List (Fin 26)) (k : ℕ) (s : GameState K) :
    (confirmAnimate c k s).previewed_letter_char = s.previewed_letter_char := by
  unfold confirmAnimate; split <;> rfl

lemma completeWordScore_none (now : ℕ) (s : GameState K) (h : s.target_word ≠ []) :
    completeWordScore now s = none := by
  unfold completeWordScore calculate_speed_multiplier
  rw [if_neg (by simpa using h)]

lemma pendingStage_skip (rnd : Rnd K) (now : ℕ) (s : GameState K)
    (h : ¬(0 < s.pending_new_word_setup_time ∧ s.pending_new_word_setup_time ≤ now)) :
    pendingStage rnd now s = s := by
  unfold pendingStage; rw [if_neg h]

lemma pendingStage_versus (rnd : Rnd K) (now : ℕ) (s : GameState K)
    (h : 0 < s.pending_new_word_setup_time ∧ s.pending_new_word_setup_time ≤ now)
    (hm : s.current_game_mode = Mode.twoPlayerVersus) :
    pendingStage rnd now s =
      { s with pending_new_word_setup_time := 0,
               current_game_state := Screen.showTurnTransition } := by
  unfold pendingStage
  rw [if_pos h, if_pos hm]

lemma pendingStage_setup (rnd : Rnd K) (now : ℕ) (s : GameState K)
    (h : 0 < s.pending_new_word_setup_time ∧ s.pending_new_word_setup_time ≤ now)
    (hm : ¬ s.current_game_mode = Mode.twoPlayerVersus) :
    pendingStage rnd now s =
      setup_new_word_for_active_player rnd now
        { s with pending_new_word_setup_time := 0 } := by
  unfold pendingStage
  rw [if_pos h, if_neg hm]

lemma hintStage_skip (now : ℕ) (s : GameState K)
    (h : ¬(s.is_hint_timer_active = true ∧ s.hints_used_this_word < HINTS_PER_WORD ∧
        s.pending_new_word_setup_time = 0)) :
    hintStage now s = some s := by
  unfold hintStage
  rw [if_neg (by simpa using h)]

lemma hintStage_not_elapsed (now : ℕ) (s : GameState K)
    (h : ¬((HINT_TIMER_DURATION_MS : ℤ) ≤ (now : ℤ) - (s.hint_timer_start_time : ℤ))) :
    hintStage now s = some s := by
  unfold hintStage
  rw [if_neg h]
  split <;> rfl

lemma hintStage_some (now : ℕ) (s t : GameState K) (h : hintStage now s = some t) :
    t.target_word = s.target_word ∧
    (t.current_letter_index = s.current_letter_index ∨
      (t.current_letter_index = s.current_letter_index + 1 ∧
        s.current_letter_index < s.target_word.length)) := by
  unfold hintStage at h
  dsimp only at h
  split at h
  case isFalse => cases h; exact ⟨rfl, Or.inl rfl⟩
  case isTrue hguard =>
    split at h
    case isFalse => cases h; exact ⟨rfl, Or.inl rfl⟩
    case isTrue helapsed =>
      split at h
      case isFalse => cases h; exact ⟨rfl, Or.inl rfl⟩
      case isTrue hlt =>
        split at h
        case h_2 => cases h; exact ⟨rfl, Or.inl rfl⟩
        case h_1 idx hfind =>
          split at h
          case isTrue hfail =>
            cases h
            exact ⟨hintDetach_target idx s, Or.inr ⟨rfl, hlt⟩⟩
          case isFalse hnfail =>
            split at h
            case isTrue hdone =>
              exfalso
              rw [completeWordScore_none] at h
              · exact Option.noConfusion h
              · have hw : s.target_word ≠ [] :=
                  List.length_pos.mp (Nat.lt_of_le_of_lt (Nat.zero_le _) hlt)
                intro hnil
                apply hw
                rw [← hintDetach_target idx s]
                exact hnil
            case isFalse hndone =>
              split at h
              case isTrue harm =>
                cases h
                exact ⟨hintDetach_target idx s, Or.inr ⟨rfl, hlt⟩⟩
              case isFalse hnarm =>
                cases h
                exact ⟨hintDetach_target idx s, Or.inr ⟨rfl, hlt⟩⟩

lemma confirmStep_some (pressed : String) (now : ℕ) (s t : GameState K)
    (h : confirmStep pressed now s = some t) :
    t.active_preview_letter_indices = [] ∧ t.previewed_letter_char = none ∧
    t.target_word = s.target_word ∧
    t.pending_new_word_setup_time = s.pending_new_word_setup_time ∧
    (t.current_letter_index = s.current_letter_index ∨
      (t.current_letter_index = s.current_letter_index + 1 ∧
        s.current_letter_index + 1 < s.target_word.length)) := by
  unfold confirmStep at h
  dsimp only at h
  split at h
  case isFalse hge =>
    cases h
    exact ⟨rfl, rfl, rfl, rfl, Or.inl rfl⟩
  case isTrue hlt =>
    split at h
    case isFalse hwrong =>
      cases h
      exact ⟨rfl, rfl, rfl, rfl, Or.inl rfl⟩
    case isTrue hright =>
      split at h
      case isTrue hdone =>
        exfalso
        rw [completeWordScore_none] at h
        · exact Option.noConfusion h
        · have hw : s.target_word ≠ [] :=
            List.length_pos.mp (Nat.lt_of_le_of_lt (Nat.zero_le _) hlt)
          split
          · intro hnil
            simp only [confirmAnimate_target, revertPreview] at hnil
            exact hw hnil
          · intro hnil
            simp only [confirmAnimate_target, revertPreview] at hnil
            exact hw hnil
      case isFalse hndone =>
        have hlt2 : s.current_letter_index + 1 < s.target_word.length :=
          lt_of_le_of_ne hlt hndone
        split at h
        case isTrue harm =>
          cases h
          refine ⟨confirmAnimate_active _ _ _, confirmAnimate_previewed _ _ _,
            confirmAnimate_target _ _ _, confirmAnimate_pending _ _ _,
            Or.inr ⟨rfl, hlt2⟩⟩
        case isFalse hnarm =>
          cases h
          refine ⟨confirmAnimate_active _ _ _, confirmAnimate_previewed _ _ _,
            confirmAnimate_target _ _ _, confirmAnimate_pending _ _ _,
            Or.inr ⟨rfl, hlt2⟩⟩

/- ------------- Concrete states for counterexamples and witnesses ------------- -/

/-- A concrete quiet gameplay state over ℚ: every entity placed, no preview, nothing
pending, target word CAT. -/
def base0 : GameState ℚ :=
  { letter_states := fun _ => LState.placed
    letter_positions := fun _ => (0, 0)
    letter_velocities := fun _ => (0, 0)
    original_letter_velocities := fun _ => (0, 0)
    letter_colors := fun _ => (50, 50, 50)
    letter_preview_timers := fun _ => 0
    letter_target_slot_indices := fun _ => -1
    letter_feedback_flash_timers := fun _ => 0
    target_word := ("CAT").toList
    current_clue_text := ("A furry animal that meows")
    displayed_word_chars := [('_'), ('_'), ('_')]
    current_letter_index := 0
    word_start_time := 0
    hints_used_this_word := 0
    hint_timer_start_time := 0
    is_hint_timer_active := false
    show_clue_on_screen := true
    previewed_letter_char := none
    active_preview_letter_indices := []
    pending_new_word_setup_time := 0
    last_word_score := 0
    show_last_word_score_until := 0
    current_player_turn := 1
    player_scores := fun _ => 0
    player_failed_last_word := fun _ => false
    current_game_state := Screen.gamePlay
    current_game_mode := Mode.onePlayer }

/-- A trivial slot-layout collaborator over ℚ. -/
def layout0 : List Char → ℕ → ℚ × ℚ := fun _ _ => (0, 0)

/-- A trivial square-root stand-in over ℚ (never reached in the states it is used
on: no entity is animating there). -/
def sqrt0 : ℚ → ℚ := fun _ => 0

/-- Concrete randomness over ℚ. -/
def rnd0 : Rnd ℚ :=
  { word_choice := ⟨("CAT"), ("A furry animal that meows")⟩
    pos_choice := fun _ => (0, 0)
    vel_choice := fun _ => (1, 0)
    color_choice := fun _ => (50, 50, 50) }

/-- A reachable state with a pending new-word transition while the letter X is still
previewed (a hint fired for another letter and exhausted the budget moments after an
X preview started). -/
def cexC5 : GameState ℚ :=
  { base0 with
    pending_new_word_setup_time := 1
    previewed_letter_char := some ("X")
    active_preview_letter_indices := [⟨23, by omega⟩]
    letter_states := fun j => if j.val = 23 then LState.preview else LState.placed }

/-- A state with entity 0 in Normal drift at the right boundary. -/
def cexC3 : GameState ℚ :=
  { base0 with
    letter_states := fun _ => LState.normal
    letter_positions := fun j => if j.val = 0 then ((960 : ℚ), 100) else (0, 0)
    letter_velocities := fun j => if j.val = 0 then ((2 : ℚ), 0) else (0, 0) }

/-- A single bare word as a word-file line. -/
def lineCAT : String := "CAT"

/- ------------- Claim C1 ------------- -/

/-- C1: the claimed scenario - target CAT, pressing the C key previews the C entity
and a second press confirms it - is impossible in the code: `if event.key == K_c`
(source line 370) shadows the `elif` letter branch (line 371), so pressing the C key
(unicode c or C) only toggles the clue flag and leaves every entity state, the
preview selection, the cursor and the buffer untouched - whatever Unicode tables
the isalpha/upper collaborators carry. -/
theorem c1_key_c_only_toggles_clue :
    ∀ (uni_isalpha : Char → Bool) (uni_upper : Char → String) (now : ℕ)
      (s : GameState ℚ),
      handle_events_game_play uni_isalpha uni_upper (GKey.char ('c')) now s =
        some { s with show_clue_on_screen := !s.show_clue_on_screen } ∧
      handle_events_game_play uni_isalpha uni_upper (GKey.char ('C')) now s =
        some { s with show_clue_on_screen := !s.show_clue_on_screen } := by
  intro uni_isalpha uni_upper now s
  constructor <;> simp [handle_events_game_play]

/- ------------- Claim C2 ------------- -/

/-- C2: scoring never produces the claimed values because
calculate_speed_multiplier raises UnboundLocalError for every non-zero word length
(the helper constants sit in the one-line `if word_length == 0` suite after its
`return`, source line 157); the base score table itself matches the claim, and the
formula the dead code was meant to implement does yield multiplier 2.0 at 0 ms and
1.0 at 24000 ms for a 3-letter word. -/
theorem c2_speed_multiplier_raises :
    calculate_speed_multiplier 0 3 = none ∧
    calculate_speed_multiplier 24000 3 = none ∧
    get_word_base_score (String.toList ("CAT")) = 30 ∧
    speedMultiplierIntended 0 3 = 2 ∧
    speedMultiplierIntended 24000 3 = 1 := by
  refine ⟨rfl, rfl, by decide, ?_, ?_⟩ <;> norm_num [speedMultiplierIntended]

/- ------------- Claim C7 ------------- -/

/-- C7 counterexample: a bare-word line CAT whose word part is 3 alphabetic
characters contributes no entry - load_words_from_file only accepts lines with a
comma (source line 52: `if len(parts) == 2`), refuting the claim that bare-word
lines are accepted. -/
theorem c7_counterexample :
    load_words_from_file (some [lineCAT]) = [] ∧
    pyIsAlpha (pyUpper (pyStrip lineCAT)) = true ∧
    (pyUpper (pyStrip lineCAT)).toList.length = 3 := by
  exact ⟨by decide, by decide, by decide⟩

/-- C7 (amended): a line contributes an entry exactly when it contains a comma, the
part before the first comma - stripped and upper-cased - is 3 to 5 alphabetic
characters, and the stripped part after the comma is non-empty; the entry holds the
upper-cased word with that clue.  All other lines (bare words included) are skipped
without error, and if zero valid entries result the built-in default list is
used. -/
theorem c7_line_filter_amended :
    (∀ (line : String) (e : WordEntry),
        processLine line = some e ↔
          ∃ w cl, splitOnce line.toList = some (w, cl) ∧
            3 ≤ (pyUpper (pyStrip (String.mk w))).toList.length ∧
            (pyUpper (pyStrip (String.mk w))).toList.length ≤ 5 ∧
            pyIsAlpha (pyUpper (pyStrip (String.mk w))) = true ∧
            (pyStrip (String.mk cl)).toList ≠ [] ∧
            e = ⟨pyUpper (pyStrip (String.mk w)), pyStrip (String.mk cl)⟩) ∧
    (∀ fileLines,
        load_words_from_file fileLines = (fileLines.getD []).filterMap processLine ∨
          fileLines = none) ∧
    (∀ fileLines,
        (load_words_from_file fileLines = [] →
          simple_words fileLines = DEFAULT_SIMPLE_WORDS) ∧
        (load_words_from_file fileLines ≠ [] →
          simple_words fileLines = load_words_from_file fileLines)) := by
  refine ⟨?_, ?_, ?_⟩
  · intro line e
    unfold processLine
    cases hsp : splitOnce line.toList with
    | none => simp
    | some p =>
      obtain ⟨w, cl⟩ := p
      dsimp only
      constructor
      · intro he
        split at he
        case isTrue hc =>
          cases he
          exact ⟨w, cl, rfl, hc.2.2.1, hc.2.2.2.1, hc.2.2.2.2, hc.2.1, rfl⟩
        case isFalse => exact Option.noConfusion he
      · rintro ⟨w2, cl2, hw2, h3, h5, ha, hcl, he⟩
        have hee : w = w2 ∧ cl = cl2 := by simpa using hw2
        obtain ⟨rfl, rfl⟩ := hee
        have hne : (pyUpper (pyStrip (String.mk w))).toList ≠ [] := by
          intro hc
          rw [hc] at h3
          simp at h3
        rw [if_pos ⟨hne, hcl, h3, h5, ha⟩, he]
  · intro fileLines
    cases fileLines with
    | none => exact Or.inr rfl
    | some ls => exact Or.inl rfl
  · intro fileLines
    constructor
    · intro h0
      unfold simple_words
      dsimp only
      rw [if_pos h0]
    · intro h0
      unfold simple_words
      dsimp only
      rw [if_neg h0]

/-- C7 witness: an empty word file falls back to the default list, and a well-formed
word,clue line is accepted through the amended filter. -/
theorem c7_amended_witness :
    simple_words (some ([] : List String)) = DEFAULT_SIMPLE_WORDS :=
  (c7_line_filter_amended.2.2 (some ([] : List String))).1 rfl

/- ------------- Claim C9 ------------- -/

/-- C9: while a new-word transition is pending, an alphabetic key press leaves the
entity states, the previewed character, the active preview set, the cursor, the
buffer and the scores unchanged (the C key still only toggles the clue flag and the
escape key is a different event). -/
theorem c9_pending_freezes_alpha_keys (uni_isalpha : Char → Bool)
    (uni_upper : Char → String) (c : Char) (now : ℕ) (s : GameState K)
    (hp : s.pending_new_word_setup_time ≠ 0) (ha : uni_isalpha c = true) :
    ∃ s', handle_events_game_play uni_isalpha uni_upper (GKey.char c) now s = some s' ∧
      s'.letter_states = s.letter_states ∧
      s'.previewed_letter_char = s.previewed_letter_char ∧
      s'.active_preview_letter_indices = s.active_preview_letter_indices ∧
      s'.current_letter_index = s.current_letter_index ∧
      s'.displayed_word_chars = s.displayed_word_chars ∧
      s'.player_scores = s.player_scores := by
  unfold handle_events_game_play
  dsimp only
  by_cases hc : c = 'c' ∨ c = 'C'
  · rw [if_pos hc]
    exact ⟨_, rfl, rfl, rfl, rfl, rfl, rfl, rfl⟩
  · rw [if_neg hc, if_neg (fun hcc => hp hcc.1)]
    exact ⟨s, rfl, rfl, rfl, rfl, rfl, rfl, rfl⟩

/-- C9 witness: pressing A in a concrete pending state changes none of the frozen
fields. -/
theorem c9_witness :
    ∃ s', handle_events_game_play ascii_isalpha ascii_upper (GKey.char ('A')) 0 cexC5 =
        some s' ∧
      s'.letter_states = cexC5.letter_states ∧
      s'.previewed_letter_char = cexC5.previewed_letter_char ∧
      s'.active_preview_letter_indices = cexC5.active_preview_letter_indices ∧
      s'.current_letter_index = cexC5.current_letter_index ∧
      s'.displayed_word_chars = cexC5.displayed_word_chars ∧
      s'.player_scores = cexC5.player_scores :=
  c9_pending_freezes_alpha_keys ascii_isalpha ascii_upper ('A') 0 cexC5 (by decide)
    (by decide)

/- ------------- Claim C5 ------------- -/

/-- C5 counterexample: in a reachable state with a pending new-word transition and
the letter X previewed, pressing X - the previewed character - changes nothing at
all: the previewed character stays X and the active preview set stays non-empty,
refuting the unconditional claim. -/
theorem c5_counterexample :
    handle_events_game_play ascii_isalpha ascii_upper (GKey.char ('X')) 5 cexC5 =
      some cexC5 ∧
    cexC5.previewed_letter_char = some ("X") ∧
    ascii_isalpha ('X') = true ∧
    ascii_upper ('X') = ("X") ∧
    cexC5.active_preview_letter_indices ≠ [] := by
  exact ⟨rfl, rfl, by decide, by decide, by decide⟩

/-- C5 (amended): provided no new-word transition is pending, the pressed key is not
the C key (which only toggles the clue, see C1), and the handler returns normally
(the word-completion path raises, see C2), every alphabetic key press whose
character equals the currently previewed character clears the previewed character
and empties the active preview set, regardless of whether it matches the expected
character at the cursor. -/
theorem c5_confirmation_clears_preview (uni_isalpha : Char → Bool)
    (uni_upper : Char → String) (c : Char) (now : ℕ) (s s' : GameState K)
    (hp : s.pending_new_word_setup_time = 0) (ha : uni_isalpha c = true)
    (hnc : ¬(c = 'c' ∨ c = 'C'))
    (hprev : s.previewed_letter_char = some (uni_upper c))
    (h : handle_events_game_play uni_isalpha uni_upper (GKey.char c) now s = some s') :
    s'.previewed_letter_char = none ∧ s'.active_preview_letter_indices = [] := by
  simp only [handle_events_game_play] at h
  rw [if_neg hnc, if_pos ⟨hp, ha⟩] at h
  rw [if_pos hprev] at h
  have hc := confirmStep_some (uni_upper c) now s s' h
  exact ⟨hc.2.1, hc.1⟩

/-- The C5 counterexample state with its pending transition cleared. -/
def cexC5b : GameState ℚ := { cexC5 with pending_new_word_setup_time := 0 }

/-- C5 witness: a concrete confirmation press with X previewed and nothing pending
clears the preview selection. -/
theorem c5_witness :
    ∃ s', handle_events_game_play ascii_isalpha ascii_upper (GKey.char ('X')) 5 cexC5b =
        some s' ∧
      s'.previewed_letter_char = none ∧
      s'.active_preview_letter_indices = [] := by
  have hsome :
      (handle_events_game_play ascii_isalpha ascii_upper (GKey.char ('X')) 5
        cexC5b).isSome = true := rfl
  obtain ⟨s', hrun⟩ := Option.isSome_iff_exists.mp hsome
  refine ⟨s', hrun, ?_⟩
  exact c5_confirmation_clears_preview ascii_isalpha ascii_upper ('X') 5 cexC5b s' rfl
    (by decide) (by decide) (by decide) hrun

/- ------------- Claim C4 ------------- -/

lemma newPreviewStep_session (pressed : String) (now : ℕ) (s : GameState K) :
    (newPreviewStep pressed now s).current_letter_index = s.current_letter_index ∧
    (newPreviewStep pressed now s).target_word = s.target_word ∧
    (newPreviewStep pressed now s).pending_new_word_setup_time =
      s.pending_new_word_setup_time ∧
    (newPreviewStep pressed now s).displayed_word_chars = s.displayed_word_chars ∧
    (newPreviewStep pressed now s).player_scores = s.player_scores := by
  unfold newPreviewStep
  dsimp only
  split <;> exact ⟨rfl, rfl, rfl, rfl, rfl⟩

/-- C4: the cursor is monotonically non-decreasing under every gameplay key press
and every per-frame update, never exceeds the target word length, and is reset to 0
only when the update performs new-word setup (the TickSetup condition, source lines
441-447). -/
theorem c4_cursor_monotone :
    (∀ (uni_isalpha : Char → Bool) (uni_upper : Char → String) (k : GKey) (now : ℕ)
        (s s' : GameState K),
        handle_events_game_play uni_isalpha uni_upper k now s = some s' →
          s.current_letter_index ≤ s'.current_letter_index ∧
          s'.target_word = s.target_word ∧
          (s.current_letter_index ≤ s.target_word.length →
            s'.current_letter_index ≤ s'.target_word.length)) ∧
    (∀ (rnd : Rnd K) (layout : List Char → ℕ → K × K) (sqrtK : K → K) (now : ℕ)
        (s s' : GameState K),
        update_game_play_logic rnd layout sqrtK now s = some s' →
          (s.current_letter_index ≤ s'.current_letter_index ∨
            (TickSetup now s ∧ s'.current_letter_index = 0)) ∧
          (s.current_letter_index ≤ s.target_word.length →
            s'.current_letter_index ≤ s'.target_word.length)) := by
  constructor
  · intro uni_isalpha uni_upper k now s s' h
    cases k with
    | escape =>
      simp only [handle_events_game_play] at h
      cases h
      exact ⟨le_refl _, rfl, fun hb => hb⟩
    | char c =>
      simp only [handle_events_game_play] at h
      by_cases hc : c = 'c' ∨ c = 'C'
      · rw [if_pos hc] at h
        cases h
        exact ⟨le_refl _, rfl, fun hb => hb⟩
      · rw [if_neg hc] at h
        by_cases hg : s.pending_new_word_setup_time = 0 ∧ uni_isalpha c = true
        · rw [if_pos hg] at h
          by_cases hpv : s.previewed_letter_char = some (uni_upper c)
          · rw [if_pos hpv] at h
            have hcs := confirmStep_some _ _ _ _ h
            rcases hcs.2.2.2.2 with hcur | ⟨hcur, hlt⟩
            · exact ⟨le_of_eq hcur.symm, hcs.2.2.1,
                fun hb => by rw [hcur, hcs.2.2.1]; exact hb⟩
            · exact ⟨by rw [hcur]; exact Nat.le_succ _, hcs.2.2.1,
                fun _ => by rw [hcur, hcs.2.2.1]; exact le_of_lt hlt⟩
          · rw [if_neg hpv] at h
            cases h
            have hn := newPreviewStep_session (uni_upper c) now s
            exact ⟨le_of_eq hn.1.symm, hn.2.1,
              fun hb => by rw [hn.1, hn.2.1]; exact hb⟩
        · rw [if_neg hg] at h
          cases h
          exact ⟨le_refl _, rfl, fun hb => hb⟩
  · intro rnd layout sqrtK now s s' h
    unfold update_game_play_logic at h
    obtain ⟨t, ht, rfl⟩ := Option.map_eq_some'.mp h
    have hm := motionStage_session layout sqrtK (previewExpiryStage now (hintCap t))
    have hpe := previewExpiryStage_session now (hintCap t)
    have hcap := hintCap_session t
    by_cases hp : 0 < s.pending_new_word_setup_time ∧
        s.pending_new_word_setup_time ≤ now
    · by_cases hmode : s.current_game_mode = Mode.twoPlayerVersus
      · rw [pendingStage_versus rnd now s hp hmode] at ht
        have hh := hintStage_some now _ t ht
        rcases hh.2 with hcur | ⟨hcur, hlt⟩
        · refine ⟨Or.inl ?_, fun hb => ?_⟩
          · rw [hm.1, hpe.1, hcap.1, hcur]
          · rw [hm.1, hpe.1, hcap.1, hcur, hm.2.1, hpe.2.1, hcap.2.1, hh.1]
            exact hb
        · refine ⟨Or.inl ?_, fun hb => ?_⟩
          · rw [hm.1, hpe.1, hcap.1, hcur]
            exact Nat.le_succ _
          · rw [hm.1, hpe.1, hcap.1, hcur, hm.2.1, hpe.2.1, hcap.2.1, hh.1]
            exact hlt
      · rw [pendingStage_setup rnd now s hp hmode] at ht
        have hstart : (setup_new_word_for_active_player rnd now
            { s with pending_new_word_setup_time := 0 }).hint_timer_start_time =
              now := rfl
        rw [hintStage_not_elapsed now _
          (by rw [hstart]; norm_num [HINT_TIMER_DURATION_MS])] at ht
        cases ht
        refine ⟨Or.inr ⟨⟨hp.1, hp.2, hmode⟩, ?_⟩, fun _ => ?_⟩
        · rw [hm.1, hpe.1, hcap.1]
          rfl
        · rw [hm.1, hpe.1, hcap.1]
          exact Nat.zero_le _
    · rw [pendingStage_skip rnd now s hp] at ht
      have hh := hintStage_some now s t ht
      rcases hh.2 with hcur | ⟨hcur, hlt⟩
      · refine ⟨Or.inl ?_, fun hb => ?_⟩
        · rw [hm.1, hpe.1, hcap.1, hcur]
        · rw [hm.1, hpe.1, hcap.1, hcur, hm.2.1, hpe.2.1, hcap.2.1, hh.1]
          exact hb
      · refine ⟨Or.inl ?_, fun hb => ?_⟩
        · rw [hm.1, hpe.1, hcap.1, hcur]
          exact Nat.le_succ _
        · rw [hm.1, hpe.1, hcap.1, hcur, hm.2.1, hpe.2.1, hcap.2.1, hh.1]
          exact hlt

/-- C4 witness: a quiet concrete tick and a concrete escape press both keep the
cursor within bounds and non-decreasing. -/
theorem c4_witness :
    ((base0.current_letter_index ≤ base0.current_letter_index ∨
        (TickSetup 0 base0 ∧ base0.current_letter_index = 0)) ∧
      (base0.current_letter_index ≤ base0.target_word.length →
        base0.current_letter_index ≤ base0.target_word.length)) ∧
    (base0.current_letter_index ≤
        ({ base0 with current_game_state := Screen.mainMenu } :
          GameState ℚ).current_letter_index ∧
      ({ base0 with current_game_state := Screen.mainMenu } :
          GameState ℚ).target_word = base0.target_word ∧
      (base0.current_letter_index ≤ base0.target_word.length →
        ({ base0 with current_game_state := Screen.mainMenu } :
            GameState ℚ).current_letter_index ≤
          ({ base0 with current_game_state := Screen.mainMenu } :
            GameState ℚ).target_word.length)) :=
  by
  have h0 : update_game_play_logic rnd0 layout0 sqrt0 0 base0 = some base0 := rfl
  have h1 : handle_events_game_play ascii_isalpha ascii_upper GKey.escape 0 base0 =
      some { base0 with current_game_state := Screen.mainMenu } := rfl
  exact ⟨c4_cursor_monotone.2 rnd0 layout0 sqrt0 0 base0 base0 h0,
    c4_cursor_monotone.1 ascii_isalpha ascii_upper GKey.escape 0 base0
      { base0 with current_game_state := Screen.mainMenu } h1⟩

/- ------------- Claim C6 ------------- -/

lemma hintCap_active_false (s : GameState K) (h : s.is_hint_timer_active = false) :
    (hintCap s).is_hint_timer_active = false := by
  unfold hintCap
  split
  · rfl
  · exact h

/-- C6: when the hint timer fires with two hints already used and the revealed
letter still leaves the word incomplete, the update marks the word failed for the
active player, brings the hint count to the full budget, switches the hint timer
off, and schedules the new-word transition: pending becomes now + 2000 and is never
left at zero. -/
theorem c6_hint_exhaustion_schedules_transition (rnd : Rnd K)
    (layout : List Char → ℕ → K × K) (sqrtK : K → K) (now : ℕ) (s : GameState K)
    (hp : s.pending_new_word_setup_time = 0)
    (hact : s.is_hint_timer_active = true)
    (hused : s.hints_used_this_word = 2)
    (helapsed : (HINT_TIMER_DURATION_MS : ℤ) ≤ (now : ℤ) - (s.hint_timer_start_time : ℤ))
    (hlt : s.current_letter_index < s.target_word.length)
    (hlt2 : s.current_letter_index + 1 < s.target_word.length)
    (hfind : (hintFind s (s.target_word.get ⟨s.current_letter_index, hlt⟩)).isSome = true) :
    ∃ s', update_game_play_logic rnd layout sqrtK now s = some s' ∧
      s'.pending_new_word_setup_time = now + 2000 ∧
      s'.pending_new_word_setup_time ≠ 0 ∧
      s'.hints_used_this_word = HINTS_PER_WORD ∧
      s'.is_hint_timer_active = false ∧
      (s.current_player_turn = 1 → s'.player_failed_last_word 0 = true) ∧
      (s.current_player_turn = 2 → s'.player_failed_last_word 1 = true) := by
  rw [Option.isSome_iff_exists] at hfind
  obtain ⟨idx, hfind⟩ := hfind
  have hskip : ¬(0 < s.pending_new_word_setup_time ∧
      s.pending_new_word_setup_time ≤ now) := by
    rw [hp]
    simp
  obtain ⟨t, ht, htp, hth, hta, htf⟩ :
      ∃ t, hintStage now s = some t ∧
        t.pending_new_word_setup_time = now + 2000 ∧
        t.hints_used_this_word = HINTS_PER_WORD ∧
        t.is_hint_timer_active = false ∧
        t.player_failed_last_word =
          setPlayer s.current_player_turn
            (hintDetach idx s).player_failed_last_word true := by
    unfold hintStage
    rw [if_pos ⟨hact, by rw [hused]; decide, hp⟩, if_pos helapsed, dif_pos hlt]
    dsimp only
    rw [hfind]
    dsimp only
    rw [if_pos ⟨by simp [hused, HINTS_PER_WORD], by simpa using hlt2⟩]
    refine ⟨_, rfl, rfl, ?_, rfl, rfl⟩
    show s.hints_used_this_word + 1 = HINTS_PER_WORD
    rw [hused]
    decide
  refine ⟨motionStage layout sqrtK (previewExpiryStage now (hintCap t)), ?_, ?_, ?_,
    ?_, ?_, ?_, ?_⟩
  · unfold update_game_play_logic
    rw [pendingStage_skip rnd now s hskip, ht]
    rfl
  · rw [(motionStage_session layout sqrtK _).2.2.1,
      (previewExpiryStage_session now _).2.2.1, (hintCap_session t).2.2.1, htp]
  · rw [(motionStage_session layout sqrtK _).2.2.1,
      (previewExpiryStage_session now _).2.2.1, (hintCap_session t).2.2.1, htp]
    omega
  · rw [(motionStage_session layout sqrtK _).2.2.2.1,
      (previewExpiryStage_session now _).2.2.2.1, (hintCap_session t).2.2.2.1, hth]
  · rw [(motionStage_session layout sqrtK _).2.2.2.2.1,
      (previewExpiryStage_session now _).2.2.2.2.1]
    exact hintCap_active_false t hta
  · intro h1
    rw [(motionStage_session layout sqrtK _).2.2.2.2.2.1,
      (previewExpiryStage_session now _).2.2.2.2.2.1, (hintCap_session t).2.2.2.2.1,
      htf, h1]
    unfold setPlayer
    rw [dif_pos (by omega)]
    simp [Function.update]
  · intro h2
    rw [(motionStage_session layout sqrtK _).2.2.2.2.2.1,
      (previewExpiryStage_session now _).2.2.2.2.2.1, (hintCap_session t).2.2.2.2.1,
      htf, h2]
    unfold setPlayer
    rw [dif_pos (by omega)]
    simp [Function.update]

/-- A concrete state ripe for the third hint: all entities Normal, two hints used,
hint timer armed long ago, target CAT at cursor 0. -/
def cexC6 : GameState ℚ :=
  { base0 with
    letter_states := fun _ => LState.normal
    is_hint_timer_active := true
    hints_used_this_word := 2
    hint_timer_start_time := 0 }

/-- C6 witness: the concrete third hint at 30000 ms schedules the transition. -/
theorem c6_witness :
    ∃ s', update_game_play_logic rnd0 layout0 sqrt0 30000 cexC6 = some s' ∧
      s'.pending_new_word_setup_time = 30000 + 2000 ∧
      s'.pending_new_word_setup_time ≠ 0 ∧
      s'.hints_used_this_word = HINTS_PER_WORD ∧
      s'.is_hint_timer_active = false ∧
      (cexC6.current_player_turn = 1 → s'.player_failed_last_word 0 = true) ∧
      (cexC6.current_player_turn = 2 → s'.player_failed_last_word 1 = true) :=
  c6_hint_exhaustion_schedules_transition rnd0 layout0 sqrt0 30000 cexC6 rfl rfl rfl
    (by decide) (by decide) (by decide) (by decide)

/- ------------- Claim C3 ------------- -/

/-- C3 counterexample: entity 0 in Normal state at x = 960 = windowWidth − drawSize
with vx = 2 sits at x = 962 after the next motion update, violating the claimed
invariant 0 ≤ x ≤ windowWidth − currentDrawSize: the integrator negates the velocity
at the boundary but never clamps the position (source lines 520-524). -/
theorem c3_counterexample :
    ((moveEntity layout0 sqrt0 (0 : Fin 26) cexC3).letter_positions 0).1 = 962 ∧
    ¬(((moveEntity layout0 sqrt0 (0 : Fin 26) cexC3).letter_positions 0).1 ≤
        (window_width : ℚ) - (default_letter_size : ℚ)) := by
  have h := moveEntity_drift layout0 sqrt0 (0 : Fin 26) cexC3 (Or.inl rfl)
  rw [h]
  constructor
  · show (960 : ℚ) + 2 = 962
    norm_num
  · show ¬((960 : ℚ) + 2 ≤ (window_width : ℚ) - (default_letter_size : ℚ))
    norm_num [window_width, default_letter_size]

/-- C3 (amended): a drifting (Normal or Previewed) entity moves by exactly one
velocity step per tick without clamping - the new coordinate can leave the interval
0..(window − currentDrawSize) by at most the step, and whenever it does the
corresponding velocity component is negated (otherwise kept), so an entity that
started inside the bounds stays within them enlarged by one velocity step.  The
second part ties moveEntity for Normal (draw size 40) and Previewed (draw size 200)
entities to this drift step. -/
theorem c3_drift_bounds :
    (∀ (size x y vx vy : K), 0 ≤ x → x ≤ (window_width : K) - size → 0 ≤ y →
      y ≤ (window_height : K) - size →
      (driftStep size (x, y) (vx, vy)).1.1 = x + vx ∧
      (driftStep size (x, y) (vx, vy)).1.2 = y + vy ∧
      -(|vx|) ≤ (driftStep size (x, y) (vx, vy)).1.1 ∧
      (driftStep size (x, y) (vx, vy)).1.1 ≤ (window_width : K) - size + |vx| ∧
      -(|vy|) ≤ (driftStep size (x, y) (vx, vy)).1.2 ∧
      (driftStep size (x, y) (vx, vy)).1.2 ≤ (window_height : K) - size + |vy| ∧
      ((x + vx < 0 ∨ x + vx > (window_width : K) - size) →
        (driftStep size (x, y) (vx, vy)).2.1 = -vx) ∧
      (0 ≤ x + vx → x + vx ≤ (window_width : K) - size →
        (driftStep size (x, y) (vx, vy)).2.1 = vx) ∧
      ((y + vy < 0 ∨ y + vy > (window_height : K) - size) →
        (driftStep size (x, y) (vx, vy)).2.2 = -vy) ∧
      (0 ≤ y + vy → y + vy ≤ (window_height : K) - size →
        (driftStep size (x, y) (vx, vy)).2.2 = vy)) ∧
    (∀ (layout : List Char → ℕ → K × K) (sqrtK : K → K) (i : Fin 26)
        (t : GameState K),
      (t.letter_states i = LState.normal →
        (moveEntity layout sqrtK i t).letter_positions i =
          (driftStep (default_letter_size : K) (t.letter_positions i)
            (t.letter_velocities i)).1 ∧
        (moveEntity layout sqrtK i t).letter_velocities i =
          (driftStep (default_letter_size : K) (t.letter_positions i)
            (t.letter_velocities i)).2) ∧
      (t.letter_states i = LState.preview →
        (moveEntity layout sqrtK i t).letter_positions i =
          (driftStep (ENLARGED_LETTER_SIZE : K) (t.letter_positions i)
            (t.letter_velocities i)).1 ∧
        (moveEntity layout sqrtK i t).letter_velocities i =
          (driftStep (ENLARGED_LETTER_SIZE : K) (t.letter_positions i)
            (t.letter_velocities i)).2)) := by
  constructor
  · intro size x y vx vy h0x hWx h0y hWy
    unfold driftStep
    dsimp only
    refine ⟨rfl, rfl, ?_, ?_, ?_, ?_, ?_, ?_, ?_, ?_⟩
    · linarith [neg_abs_le vx]
    · linarith [le_abs_self vx]
    · linarith [neg_abs_le vy]
    · linarith [le_abs_self vy]
    · intro hout
      rw [if_pos hout]
    · intro h1 h2
      rw [if_neg (not_or.mpr ⟨not_lt.mpr h1, not_lt.mpr h2⟩)]
    · intro hout
      rw [if_pos hout]
    · intro h1 h2
      rw [if_neg (not_or.mpr ⟨not_lt.mpr h1, not_lt.mpr h2⟩)]
  · intro layout sqrtK i t
    constructor
    · intro hst
      rw [moveEntity_drift layout sqrtK i t (Or.inl hst), hst]
      refine ⟨?_, ?_⟩ <;> simp [Function.update_same]
    · intro hst
      rw [moveEntity_drift layout sqrtK i t (Or.inr hst), hst]
      refine ⟨?_, ?_⟩ <;> simp [Function.update_same]

/-- C3 witness: the drift step at a concrete in-bounds entity takes one full
velocity step, and moveEntity agrees with it for a Normal entity. -/
theorem c3_witness :
    (driftStep (40 : ℚ) (0, 0) (1, 1)).1.1 = 0 + 1 ∧
    (moveEntity layout0 sqrt0 (0 : Fin 26) cexC3).letter_positions 0 =
      (driftStep ((default_letter_size : ℚ)) (cexC3.letter_positions 0)
        (cexC3.letter_velocities 0)).1 :=
  ⟨(c3_drift_bounds.1 40 0 0 1 1 (by norm_num) (by norm_num [window_width])
      (by norm_num) (by norm_num [window_height])).1,
   ((c3_drift_bounds.2 layout0 sqrt0 0 cexC3).1 rfl).1⟩

/- ------------- Claim C8 ------------- -/

/-- The base concrete state over ℝ. -/
def base0R : GameState ℝ :=
  { letter_states := fun _ => LState.placed
    letter_positions := fun _ => (0, 0)
    letter_velocities := fun _ => (0, 0)
    original_letter_velocities := fun _ => (0, 0)
    letter_colors := fun _ => (50, 50, 50)
    letter_preview_timers := fun _ => 0
    letter_target_slot_indices := fun _ => -1
    letter_feedback_flash_timers := fun _ => 0
    target_word := ("CAT").toList
    current_clue_text := ("A furry animal that meows")
    displayed_word_chars := [('_'), ('_'), ('_')]
    current_letter_index := 0
    word_start_time := 0
    hints_used_this_word := 0
    hint_timer_start_time := 0
    is_hint_timer_active := false
    show_clue_on_screen := true
    previewed_letter_char := none
    active_preview_letter_indices := []
    pending_new_word_setup_time := 0
    last_word_score := 0
    show_last_word_score_until := 0
    current_player_turn := 1
    player_scores := fun _ => 0
    player_failed_last_word := fun _ => false
    current_game_state := Screen.gamePlay
    current_game_mode := Mode.onePlayer }

/-- Concrete randomness over ℝ with unit speed and angle 0. -/
def rnd8 : Rnd ℝ :=
  { word_choice := ⟨("CAT"), ("A furry animal that meows")⟩
    pos_choice := fun _ => (0, 0)
    vel_choice := fun _ => (1, 0)
    color_choice := fun _ => (50, 50, 50) }

/-- C8: immediately after new-word setup every one of the 26 entities is Normal,
its preview timer and feedback-flash timer are cleared to 0, its target-slot index
is cleared to −1, its position lies within the window bounds minus the default draw
size, and - with the velocity sampled as (cos a · sp, sin a · sp) for a speed sp
drawn from 1..default_letter_speed (source lines 214-218) - its speed is within
1..default_letter_speed. -/
theorem c8_reset_all (rnd : Rnd ℝ) (now : ℕ) (s : GameState ℝ)
    (hx : ∀ i, (rnd.pos_choice i).1 ≤ window_width - default_letter_size)
    (hy : ∀ i, (rnd.pos_choice i).2 ≤ window_height - default_letter_size)
    (hv : ∀ i, ∃ a : ℝ, ∃ sp : ℕ, 1 ≤ sp ∧ sp ≤ default_letter_speed ∧
        rnd.vel_choice i = (Real.cos a * sp, Real.sin a * sp)) :
    ∀ i : Fin 26,
      (setup_new_word_for_active_player rnd now s).letter_states i = LState.normal ∧
      (setup_new_word_for_active_player rnd now s).letter_preview_timers i = 0 ∧
      (setup_new_word_for_active_player rnd now s).letter_feedback_flash_timers i = 0 ∧
      (setup_new_word_for_active_player rnd now s).letter_target_slot_indices i = -1 ∧
      0 ≤ ((setup_new_word_for_active_player rnd now s).letter_positions i).1 ∧
      ((setup_new_word_for_active_player rnd now s).letter_positions i).1 ≤
        (window_width : ℝ) - (default_letter_size : ℝ) ∧
      0 ≤ ((setup_new_word_for_active_player rnd now s).letter_positions i).2 ∧
      ((setup_new_word_for_active_player rnd now s).letter_positions i).2 ≤
        (window_height : ℝ) - (default_letter_size : ℝ) ∧
      1 ≤ Real.sqrt
        ((((setup_new_word_for_active_player rnd now s).letter_velocities i).1) ^ 2 +
          (((setup_new_word_for_active_player rnd now s).letter_velocities i).2) ^ 2) ∧
      Real.sqrt
        ((((setup_new_word_for_active_player rnd now s).letter_velocities i).1) ^ 2 +
          (((setup_new_word_for_active_player rnd now s).letter_velocities i).2) ^ 2) ≤
        (default_letter_speed : ℝ) := by
  intro i
  obtain ⟨a, sp, hsp1, hsp2, hvel⟩ := hv i
  have hcastW : ((window_width - default_letter_size : ℕ) : ℝ) =
      (window_width : ℝ) - (default_letter_size : ℝ) :=
    Nat.cast_sub (by norm_num [window_width, default_letter_size])
  have hcastH : ((window_height - default_letter_size : ℕ) : ℝ) =
      (window_height : ℝ) - (default_letter_size : ℝ) :=
    Nat.cast_sub (by norm_num [window_height, default_letter_size])
  have hnorm : (((setup_new_word_for_active_player rnd now s).letter_velocities i).1) ^ 2 +
      (((setup_new_word_for_active_player rnd now s).letter_velocities i).2) ^ 2 =
        (sp : ℝ) ^ 2 := by
    show (rnd.vel_choice i).1 ^ 2 + (rnd.vel_choice i).2 ^ 2 = (sp : ℝ) ^ 2
    rw [hvel]
    dsimp only
    have hh := Real.sin_sq_add_cos_sq a
    nlinarith [hh]
  refine ⟨rfl, rfl, rfl, rfl, ?_, ?_, ?_, ?_, ?_, ?_⟩
  · exact Nat.cast_nonneg _
  · rw [← hcastW]
    show ((rnd.pos_choice i).1 : ℝ) ≤ ((window_width - default_letter_size : ℕ) : ℝ)
    exact_mod_cast hx i
  · exact Nat.cast_nonneg _
  · rw [← hcastH]
    show ((rnd.pos_choice i).2 : ℝ) ≤ ((window_height - default_letter_size : ℕ) : ℝ)
    exact_mod_cast hy i
  · rw [hnorm, Real.sqrt_sq (by positivity)]
    exact_mod_cast hsp1
  · rw [hnorm, Real.sqrt_sq (by positivity)]
    exact_mod_cast hsp2

/-- C8 witness: a concrete reset with angle 0 and speed 1 yields Normal entities
with cleared timers and unit speed. -/
theorem c8_witness :
    (setup_new_word_for_active_player rnd8 0 base0R).letter_states 0 =
      LState.normal ∧
    (setup_new_word_for_active_player rnd8 0 base0R).letter_preview_timers 0 = 0 ∧
    (setup_new_word_for_active_player rnd8 0 base0R).letter_feedback_flash_timers 0 =
      0 ∧
    (setup_new_word_for_active_player rnd8 0 base0R).letter_target_slot_indices 0 =
      -1 ∧
    1 ≤ Real.sqrt
      ((((setup_new_word_for_active_player rnd8 0 base0R).letter_velocities 0).1) ^ 2 +
        (((setup_new_word_for_active_player rnd8 0 base0R).letter_velocities 0).2) ^ 2) := by
  have h := c8_reset_all rnd8 0 base0R (fun i => Nat.zero_le _) (fun i => Nat.zero_le _)
    (fun i => ⟨0, 1, le_refl 1, by decide, by simp [rnd8]⟩) 0
  exact ⟨h.1, h.2.1, h.2.2.1, h.2.2.2.1, h.2.2.2.2.2.2.2.2.1⟩

/- ------------- Claim C10 ------------- -/

lemma exists_letterOf (c : Char) (hc : c.isAlpha = true) :
    ∃ i : Fin 26, letterOf i = c.toUpper := by
  have hb : c.isUpper = true ∨ c.isLower = true := by
    simpa [Char.isAlpha, Bool.or_eq_true] using hc
  rcases hb with hu | hl
  · have hn : 65 ≤ c.toNat ∧ c.toNat ≤ 90 := by
      simp only [Char.isUpper, Bool.and_eq_true, decide_eq_true_eq] at hu
      obtain ⟨h1, h2⟩ := hu
      simp only [ge_iff_le, UInt32.le_def, BitVec.le_def] at h1 h2
      exact ⟨h1, h2⟩
    have htu : c.toUpper = c := by
      unfold Char.toUpper
      dsimp only
      rw [if_neg (by omega)]
    refine ⟨⟨c.toNat - 65, by omega⟩, ?_⟩
    rw [htu]
    show Char.ofNat (65 + (c.toNat - 65)) = c
    have he : 65 + (c.toNat - 65) = c.toNat := by omega
    rw [he, Char.ofNat_toNat]
  · have hn : 97 ≤ c.toNat ∧ c.toNat ≤ 122 := by
      simp only [Char.isLower, Bool.and_eq_true, decide_eq_true_eq] at hl
      obtain ⟨h1, h2⟩ := hl
      simp only [ge_iff_le, UInt32.le_def, BitVec.le_def] at h1 h2
      exact ⟨h1, h2⟩
    have htu : c.toUpper = Char.ofNat (c.toNat - 32) := by
      unfold Char.toUpper
      dsimp only
      rw [if_pos ⟨hn.1, hn.2⟩]
    refine ⟨⟨c.toNat - 97, by omega⟩, ?_⟩
    rw [htu]
    show Char.ofNat (65 + (c.toNat - 97)) = Char.ofNat (c.toNat - 32)
    congr 1
    omega

lemma previewInv_newPreviewStep (pressed : String) (now : ℕ) (s : GameState K)
    (hex : ∃ i : Fin 26, String.mk [letterOf i] = pressed) :
    PreviewInv (newPreviewStep pressed now s) := by
  obtain ⟨i0, hi0⟩ := hex
  have hi0mem : i0 ∈ (List.finRange 26).filter
      (fun i => String.mk [letterOf i] == pressed) := by
    rw [List.mem_filter]
    exact ⟨List.mem_finRange i0, by simp [hi0]⟩
  unfold PreviewInv newPreviewStep
  dsimp only
  refine ⟨⟨?_, ?_⟩, ?_, ?_⟩
  · intro hnone
    exact absurd hnone (by simp)
  · intro hemp
    rw [hemp] at hi0mem
    exact absurd hi0mem (List.not_mem_nil _)
  · intro j hj
    rw [List.mem_filter] at hj
    have hjc : String.mk [letterOf j] = pressed := by simpa using hj.2
    exact ⟨by rw [if_pos hjc], by rw [hjc]⟩
  · exact (List.nodup_finRange 26).filter _

lemma previewInv_detach_animate (idx : Fin 26) (s : GameState K)
    (hinv : PreviewInv s) :
    ((hintDetach idx s).previewed_letter_char = none ↔
      (hintDetach idx s).active_preview_letter_indices = []) ∧
    (∀ j ∈ (hintDetach idx s).active_preview_letter_indices,
      Function.update (hintDetach idx s).letter_states idx LState.animating j =
        LState.preview ∧
      (hintDetach idx s).previewed_letter_char = some (String.mk [letterOf j])) ∧
    (hintDetach idx s).active_preview_letter_indices.Nodup := by
  obtain ⟨hiff, hmem, hnd⟩ := hinv
  unfold hintDetach
  split
  case isTrue hcond =>
    dsimp only
    refine ⟨⟨?_, ?_⟩, ?_, hnd.erase idx⟩
    · intro hnone
      by_cases he : s.active_preview_letter_indices.erase idx = []
      · exact he
      · rw [if_neg he] at hnone
        have h0 := hiff.mp hnone
        exact absurd (by rw [h0]; rfl) he
    · intro he
      rw [if_pos he]
    · intro j hj
      have hj2 : j ≠ idx ∧ j ∈ s.active_preview_letter_indices :=
        (List.Nodup.mem_erase_iff hnd).mp hj
      have hne : s.active_preview_letter_indices.erase idx ≠ [] :=
        List.ne_nil_of_mem hj
      refine ⟨?_, ?_⟩
      · rw [Function.update_noteq hj2.1]
        exact (hmem j hj2.2).1
      · rw [if_neg hne]
        exact (hmem j hj2.2).2
  case isFalse hcond =>
    refine ⟨hiff, ?_, hnd⟩
    intro j hj
    have hmj := hmem j hj
    by_cases hji : j = idx
    · subst hji
      exact absurd ⟨hmj.1, hmj.2⟩ hcond
    · refine ⟨?_, hmj.2⟩
      rw [Function.update_noteq hji]
      exact hmj.1

lemma previewInv_hintStage (now : ℕ) (s t : GameState K) (hinv : PreviewInv s)
    (h : hintStage now s = some t) : PreviewInv t := by
  unfold hintStage at h
  dsimp only at h
  split at h
  case isFalse => cases h; exact hinv
  case isTrue hguard =>
    split at h
    case isFalse => cases h; exact hinv
    case isTrue helapsed =>
      split at h
      case isFalse => cases h; exact hinv
      case isTrue hlt =>
        split at h
        case h_2 => cases h; exact hinv
        case h_1 idx hfind =>
          split at h
          case isTrue hfail =>
            cases h
            exact previewInv_detach_animate idx s hinv
          case isFalse hnfail =>
            split at h
            case isTrue hdone =>
              exfalso
              rw [completeWordScore_none] at h
              · exact Option.noConfusion h
              · have hw : s.target_word ≠ [] :=
                  List.length_pos.mp (Nat.lt_of_le_of_lt (Nat.zero_le _) hlt)
                intro hnil
                apply hw
                rw [← hintDetach_target idx s]
                exact hnil
            case isFalse hndone =>
              split at h
              case isTrue harm =>
                cases h
                exact previewInv_detach_animate idx s hinv
              case isFalse hnarm =>
                cases h
                exact previewInv_detach_animate idx s hinv

lemma previewInv_pendingStage (rnd : Rnd K) (now : ℕ) (s : GameState K)
    (hinv : PreviewInv s) : PreviewInv (pendingStage rnd now s) := by
  unfold pendingStage
  split
  · split
    · exact hinv
    · exact ⟨⟨fun _ => rfl, fun _ => rfl⟩,
        fun j hj => absurd hj (List.not_mem_nil _), List.nodup_nil⟩
  · exact hinv

lemma previewInv_previewExpiryStage (now : ℕ) (s : GameState K)
    (hinv : PreviewInv s) : PreviewInv (previewExpiryStage now s) := by
  obtain ⟨hiff, hmem, hnd⟩ := hinv
  unfold PreviewInv previewExpiryStage
  split
  case isFalse => exact ⟨hiff, hmem, hnd⟩
  case isTrue hguard =>
    dsimp only
    refine ⟨⟨?_, ?_⟩, ?_, hnd.filter _⟩
    · intro hnone
      by_cases hstill : s.active_preview_letter_indices.filter
          (fun j => s.letter_states j == LState.preview &&
            !(decide (s.letter_preview_timers j < now) &&
              decide (s.letter_preview_timers j ≠ 0))) = []
      · exact hstill
      · rw [if_neg hstill] at hnone
        have h0 := hiff.mp hnone
        exact absurd h0 hguard.2
    · intro he
      rw [if_pos he]
    · intro j hj
      have hj2 := List.mem_filter.mp hj
      have hkeep := hj2.2
      simp only [Bool.and_eq_true, beq_iff_eq, Bool.not_eq_true', Bool.and_eq_false_iff,
        decide_eq_true_eq, decide_eq_false_iff_not, not_not] at hkeep
      have hne : s.active_preview_letter_indices.filter
          (fun j => s.letter_states j == LState.preview &&
            !(decide (s.letter_preview_timers j < now) &&
              decide (s.letter_preview_timers j ≠ 0))) ≠ [] :=
        List.ne_nil_of_mem hj
      refine ⟨?_, ?_⟩
      · rw [if_neg ?hc]
        · exact hkeep.1
        case hc =>
          intro hcond
          rcases hkeep.2 with hlt | h0
          · exact hlt hcond.2.2.1
          · exact hcond.2.2.2 h0
      · rw [if_neg hne]
        exact (hmem j hj2.1).2

lemma previewInv_motionStage (layout : List Char → ℕ → K × K) (sqrtK : K → K)
    (s : GameState K) (hinv : PreviewInv s) :
    PreviewInv (motionStage layout sqrtK s) := by
  obtain ⟨hiff, hmem, hnd⟩ := hinv
  have hact : (motionStage layout sqrtK s).active_preview_letter_indices =
      s.active_preview_letter_indices :=
    (motionStage_session layout sqrtK s).2.2.2.2.2.2.2.2
  have hprev : (motionStage layout sqrtK s).previewed_letter_char =
      s.previewed_letter_char :=
    (motionStage_session layout sqrtK s).2.2.2.2.2.2.2.1
  refine ⟨?_, ?_, ?_⟩
  · rw [hact, hprev]
    exact hiff
  · intro j hj
    rw [hact] at hj
    exact ⟨motionStage_states_preview layout sqrtK j s (hmem j hj).1,
      by rw [hprev]; exact (hmem j hj).2⟩
  · rw [hact]
    exact hnd

/-- C10 counterexample: Python's Unicode isalpha accepts LATIN SMALL LETTER E WITH
ACUTE (which Lean's ASCII Char.isAlpha rejects), so in a quiet state pressing that
key runs the new-preview branch (source lines 414-429): the previewed character is
set to the press's upper-case string while no entity's A-Z letter matches it, so the
active preview set comes out empty - the invariant's absent-iff-empty component
fails in the resulting state, refuting preservation under arbitrary key presses.
The breakage persists: the timeout sweep (source line 495) only clears the
previewed character when the active set is non-empty. -/
theorem c10_counterexample :
    accent_isalpha ('é') = true ∧
    Char.isAlpha ('é') = false ∧
    handle_events_game_play accent_isalpha accent_upper (GKey.char ('é')) 0 base0 =
      some (newPreviewStep (accent_upper ('é')) 0 base0) ∧
    PreviewInv base0 ∧
    ¬ PreviewInv (newPreviewStep (accent_upper ('é')) 0 base0) := by
  refine ⟨by decide, by decide, rfl,
    ⟨⟨fun _ => rfl, fun _ => rfl⟩,
      fun j hj => absurd hj (List.not_mem_nil _), List.nodup_nil⟩, ?_⟩
  intro hinv
  have hact : (newPreviewStep (accent_upper ('é')) 0 base0
      : GameState ℚ).active_preview_letter_indices = [] := by decide
  have hprev := hinv.1.mpr hact
  exact absurd hprev (by decide)

/-- C10 (amended): the preview-selection invariant - the previewed character is
absent exactly when the active preview set is empty, and every active index is a
Previewed entity carrying the previewed character (the active list being a set) - is
preserved by every gameplay key press (confirmation, new preview, clue toggle,
escape) and by every per-frame update (pending setup, hint reveal, preview timeout,
motion), provided every key press the handler's Unicode isalpha accepts carries an
ASCII letter, upper-casing to its single ASCII upper-case letter as the full Unicode
tables do on ASCII; only such a press is guaranteed a matching A-Z entity.  Without
that proviso the handler part is false, see the counterexample. -/
theorem c10_preview_invariant_preserved :
    (∀ (uni_isalpha : Char → Bool) (uni_upper : Char → String) (k : GKey) (now : ℕ)
        (s s' : GameState K), PreviewInv s →
        (∀ c, k = GKey.char c → uni_isalpha c = true →
          c.isAlpha = true ∧ uni_upper c = String.mk [c.toUpper]) →
        handle_events_game_play uni_isalpha uni_upper k now s = some s' →
        PreviewInv s') ∧
    (∀ (rnd : Rnd K) (layout : List Char → ℕ → K × K) (sqrtK : K → K) (now : ℕ)
        (s s' : GameState K), PreviewInv s →
        update_game_play_logic rnd layout sqrtK now s = some s' → PreviewInv s') := by
  constructor
  · intro uni_isalpha uni_upper k now s s' hinv hascii h
    cases k with
    | escape =>
      simp only [handle_events_game_play] at h
      cases h
      exact hinv
    | char c =>
      simp only [handle_events_game_play] at h
      by_cases hc : c = 'c' ∨ c = 'C'
      · rw [if_pos hc] at h
        cases h
        exact hinv
      · rw [if_neg hc] at h
        by_cases hg : s.pending_new_word_setup_time = 0 ∧ uni_isalpha c = true
        · rw [if_pos hg] at h
          by_cases hpv : s.previewed_letter_char = some (uni_upper c)
          · rw [if_pos hpv] at h
            have hcs := confirmStep_some _ _ _ _ h
            refine ⟨?_, ?_, ?_⟩
            · rw [hcs.2.1, hcs.1]
              simp
            · intro j hj
              rw [hcs.1] at hj
              exact absurd hj (List.not_mem_nil _)
            · rw [hcs.1]
              exact List.nodup_nil
          · rw [if_neg hpv] at h
            cases h
            obtain ⟨hA, hU⟩ := hascii c rfl hg.2
            obtain ⟨i0, hi0⟩ := exists_letterOf c hA
            exact previewInv_newPreviewStep (uni_upper c) now s
              ⟨i0, by rw [hU, hi0]⟩
        · rw [if_neg hg] at h
          cases h
          exact hinv
  · intro rnd layout sqrtK now s s' hinv h
    unfold update_game_play_logic at h
    obtain ⟨t, ht, rfl⟩ := Option.map_eq_some'.mp h
    have h1 := previewInv_pendingStage rnd now s hinv
    have h2 := previewInv_hintStage now _ t h1 ht
    have h3 : PreviewInv (hintCap t) := by
      unfold hintCap
      split
      · exact h2
      · exact h2
    exact previewInv_motionStage layout sqrtK _
      (previewInv_previewExpiryStage now _ h3)

/-- C10 witness: the invariant holds in a concrete quiet state and survives a
concrete escape press (under the ASCII fragment of the Unicode tables) and a
concrete quiet tick. -/
theorem c10_witness :
    PreviewInv ({ base0 with current_game_state := Screen.mainMenu } : GameState ℚ) ∧
    PreviewInv base0 := by
  have hb : PreviewInv base0 := by
    exact ⟨⟨fun _ => rfl, fun _ => rfl⟩,
      fun j hj => absurd hj (List.not_mem_nil _), List.nodup_nil⟩
  have h0 : update_game_play_logic rnd0 layout0 sqrt0 0 base0 = some base0 := rfl
  exact ⟨c10_preview_invariant_preserved.1 ascii_isalpha ascii_upper GKey.escape 0
      base0 { base0 with current_game_state := Screen.mainMenu } hb
      (fun c hc => GKey.noConfusion hc) rfl,
    c10_preview_invariant_preserved.2 rnd0 layout0 sqrt0 0 base0 base0 hb h0⟩

end AlphabetSwarm
